import Mathlib

/-
Verification development for the mokapot core (src/mokapot/model.py and
src/mokapot/brew.py): a shallow embedding of the Model class (fit,
decision_function, predict) and of the brew cross-validation orchestration,
together with theorems settling the frozen claims about them.

Modelling conventions:
- Feature values and decision scores are integers (`Int`); FDR thresholds are
  rationals (`Rat`).  The numeric domain is irrelevant to every claim treated
  here, which concern control flow, data flow, ordering and error behaviour.
- The PSM dataset is an external collaborator (dataset.py is not part of the
  two source files); its operations (`_find_best_feature`, `_update_labels`,
  `calibrate_scores`, `split`, ...) appear as function-valued fields of a
  `PsmDataset` record, per the contracts of spec section 6.
- The scikit-learn estimator and scaler are likewise collaborators: the
  estimator state is an abstract type `sigma`, hyperparameters an abstract
  type `pi`, and their `fit` / `decision_function` / `set_params` /
  search-fit operations are function parameters bundled in `EstOps`.
- Python mutation (`model.fit` mutates `self`; `copy.deepcopy` in brew) is
  rendered by value semantics: `Model.fit` returns the updated model value,
  and each brew fold applies the per-fold training to the template value.
- The feature matrix is column-major: a list of named columns
  `List (String × List Int)`; `norm_feat` and estimator inputs are lists of
  columns `List (List Int)`.  Row selection by the working-label vector acts
  entrywise on each column.
-/

set_option autoImplicit false

/-- A label vector entry is +1 (positive), -1 (negative) or 0 (excluded),
as produced by the dataset collaborator. -/
abbrev Labels := List Int

/-- Column-major feature matrix: one list of values per feature column. -/
abbrev Mat := List (List Int)

/-- The external PSM dataset collaborator (dataset.py is outside src/): named
feature columns plus the operations the two source files call on it.
`update_labels scores fdr desc` models `psms._update_labels`; the `Option Rat`
is `none` when the source calls it without an `fdr_threshold` argument
(model.py lines 151-153), leaving the collaborator's default in force. -/
structure PsmDataset where
  featCols : List (String × List Int)
  find_best_feature : Rat → String × Nat × Labels
  update_labels : List Int → Option Rat → Bool → Labels
  calibrate_scores : List Int → Rat → List Int
  split : Nat → List (List Nat)

/-- `psms.features.columns.tolist()`. -/
def PsmDataset.featNames (p : PsmDataset) : List String :=
  p.featCols.map Prod.fst

/-- The classifier collaborator operations (spec section 6): estimator state
`sigma`, hyperparameter values `pi`.  `searchBP st X y` models fitting the
hyperparameter-search wrapper (whose own configuration is folded into the
function) on `(X, y)` and reading `best_params_`; `rawDec st psms` models
`self.estimator.decision_function(psms)` at model.py line 146, where the
estimator is applied to the dataset object itself. -/
structure EstOps (sigma pi : Type) where
  fit : sigma → Mat → List Int → sigma
  dec : sigma → Mat → List Int
  rawDec : sigma → PsmDataset → List Int
  searchBP : sigma → Mat → List Int → pi
  setParams : sigma → pi → sigma

/-- The Model state (model.py class Model).  `hasSearchAttr` records
`hasattr(self.estimator, "estimator")`: when true, `est` is the search
wrapper's inner estimator and the wrapper's search behaviour lives in
`EstOps.searchBP`.  `scalerFT` is `scaler.fit_transform`, `scalerT` is
`scaler.transform`. -/
structure Model (sigma : Type) where
  is_trained : Bool
  features : Option (List String)
  hasSearchAttr : Bool
  est : sigma
  scalerFT : Mat → Mat
  scalerT : Mat → Mat

/-- `Model.__init__` (model.py lines 62-80): untrained, no feature list. -/
def Model.init {sigma : Type} (est : sigma) (hasSearchAttr : Bool)
    (scalerFT scalerT : Mat → Mat) : Model sigma :=
  { is_trained := false
    features := none
    hasSearchAttr := hasSearchAttr
    est := est
    scalerFT := scalerFT
    scalerT := scalerT }

/-- Errors raised by `Model.decision_function` (model.py lines 97-103).
`notFitted` is sklearn's NotFittedError; `featureMismatch` the ValueError for
a feature-set mismatch; `noneFeatures` the TypeError Python would raise from
`set(self.features)` when `features` is still `None` (unreachable for models
trained through `fit`). -/
inductive ScoreError where
  | notFitted
  | featureMismatch
  | noneFeatures
deriving DecidableEq

/-- `psms.features.loc[:, self.features]`: look up one named column
(pandas label-based selection; first match). -/
def findCol : List (String × List Int) → String → Option (List Int)
  | [], _ => none
  | c :: rest, n => if c.1 = n then some c.2 else findCol rest n

/-- Column selection in the model's stored feature order. -/
def selectColsByName (cols : List (String × List Int)) (names : List String) : Mat :=
  names.map (fun n => (findCol cols n).getD [])

/-- `Model.decision_function` (model.py lines 83-106): guard on training
state, feature-set equality check, then scale the columns selected in
training order and score them. -/
def Model.decision_function {sigma pi : Type} (eops : EstOps sigma pi)
    (m : Model sigma) (psms : PsmDataset) : Except ScoreError (List Int) :=
  if m.is_trained = false then .error .notFitted
  else
    match m.features with
    | none => .error .noneFeatures
    | some fs =>
      if psms.featNames.toFinset ≠ fs.toFinset then .error .featureMismatch
      else .ok (eops.dec m.est (m.scalerT (selectColsByName psms.featCols fs)))

/-- `Model.predict` (model.py lines 108-110): alias for decision_function. -/
def Model.predict {sigma pi : Type} (eops : EstOps sigma pi)
    (m : Model sigma) (psms : PsmDataset) : Except ScoreError (List Int) :=
  Model.decision_function eops m psms

/-- `norm_feat[target.astype(bool), :]`: keep the rows whose working label is
nonzero (columnwise on a column-major matrix). -/
def selectRows (cols : Mat) (target : Labels) : Mat :=
  cols.map (fun c => ((c.zip target).filter (fun q => q.2 != 0)).map Prod.fst)

/-- `(target[target.astype(bool)] + 1) / 2`: the nonzero labels recoded, so
-1 becomes 0 and +1 becomes 1. -/
def recode (target : Labels) : List Int :=
  (target.filter (fun l => l != 0)).map (fun l => (l + 1) / 2)

/-- `(labels == 1).sum()`. -/
def countPos (target : Labels) : Nat :=
  (target.filter (fun l => l = 1)).length

/-- The choice of `start_labels` in `Model.fit` (model.py lines 141-157),
given `feat_labels` from the (already executed) best-feature search.  The
branch order mirrors the source: first `direction is None and not
self.is_trained`, then `self.is_trained`, else the explicit-direction case
with its descending-on-ties comparison. -/
def startLabels {sigma pi : Type} (eops : EstOps sigma pi) (m : Model sigma)
    (psms : PsmDataset) (train_fdr : Rat) (direction : Option String)
    (feat_labels : Labels) : Labels :=
  if direction = none ∧ m.is_trained = false then feat_labels
  else if m.is_trained = true then
    psms.update_labels (eops.rawDec m.est psms) (some train_fdr) true
  else
    let v := (findCol psms.featCols (direction.getD "")).getD []
    let desc_labels := psms.update_labels v none true
    let asc_labels := psms.update_labels v none false
    if countPos desc_labels ≥ countPos asc_labels then desc_labels
    else asc_labels

/-- The training loop of `Model.fit` (model.py lines 176-193): each round
fits the estimator on the rows with nonzero working label (recoded to
{0,1}), scores the entire normalized matrix, rethresholds at `train_fdr`,
and records the +1 count.  Returns the final estimator state, the final
working labels, and the recorded counts.  The loop is a plain recursion on
the remaining round count: there is no early exit. -/
def trainLoop {sigma pi : Type} (eops : EstOps sigma pi) (norm_feat : Mat)
    (psms : PsmDataset) (train_fdr : Rat) :
    Nat → sigma → Labels → sigma × Labels × List Nat
  | 0, model, target => (model, target, [])
  | Nat.succ n, model, target =>
    let samples := selectRows norm_feat target
    let iter_targ := recode target
    let m1 := eops.fit model samples iter_targ
    let scores := eops.dec m1 norm_feat
    let t1 := psms.update_labels scores (some train_fdr) true
    let rest := trainLoop eops norm_feat psms train_fdr n m1 t1
    (rest.1, rest.2.1, countPos t1 :: rest.2.2)

/-- `Model.fit` (model.py lines 112-197).  Returns the updated model value
(Python mutates `self`), the per-iteration positive counts `num_passed`, and
the number of `psms._find_best_feature` invocations performed during the
call.  The source invokes that search exactly once, unconditionally, at line
140, before any branch on `direction` or `is_trained`; hence the count is 1.
When `hasSearchAttr` holds, the search wrapper is fit once, before the loop,
on the rows selected by `feat_labels` (model.py lines 164-172) and its best
parameters are applied to the inner estimator, which the loop then uses. -/
def Model.fit {sigma pi : Type} (eops : EstOps sigma pi) (m : Model sigma)
    (psms : PsmDataset) (train_fdr : Rat) (max_iter : Nat)
    (direction : Option String) : Model sigma × List Nat × Nat :=
  let fb := psms.find_best_feature train_fdr
  let fbfCalls : Nat := 1
  let start_labels := startLabels eops m psms train_fdr direction fb.2.2
  let features := psms.featNames
  let norm_feat := m.scalerFT (psms.featCols.map Prod.snd)
  let model0 :=
    if m.hasSearchAttr = true then
      let cv_samples := selectRows norm_feat fb.2.2
      let cv_targ := recode fb.2.2
      let best_params := eops.searchBP m.est cv_samples cv_targ
      eops.setParams m.est best_params
    else m.est
  let r := trainLoop eops norm_feat psms train_fdr max_iter model0 start_labels
  ({ m with is_trained := true
            hasSearchAttr := false
            est := r.1
            features := some features },
   r.2.2, fbfCalls)

/-
Embedding of brew.py.  The per-fold training and prediction go through the
dataset slices `psms.data.iloc[...]`, which belong to the external dataset
collaborator; they are therefore modelled as operations on the row-index
lists that define each slice, bundled in `BrewOps`.
-/

/-- The collaborator operations `brew` consumes (brew.py lines 73-100 and the
helpers `_predict` / `_fit_model`): `fit_model tmpl rows fdr iters` is
`_fit_model` applied to a deep copy of the template and the training slice
given by `rows`; `predict m rows` is `model.predict` on the slice given by
`rows`; `calibrate_scores` and `assign_confidence` are the dataset methods of
those names; `split` is `psms.split(folds)`; `nrows` is `len(psms.data)`. -/
structure BrewOps (mu beta : Type) where
  nrows : Nat
  split : Nat → List (List Nat)
  fit_model : mu → List Nat → Rat → Nat → mu
  predict : mu → List Nat → List Int
  calibrate_scores : List Int → Rat → List Int
  assign_confidence : List Int → Bool → beta

/-- `all_idx - set(i)` (brew.py line 76): the complement of a fold's test
rows, in ascending row order. -/
def trainRows (nrows : Nat) (fold : List Nat) : List Nat :=
  (List.range nrows).filter (fun r => decide (r ∉ fold))

/-- The per-fold trained models (brew.py lines 80-94, sequential path): each
fold applies `_fit_model` to its own deep copy of the template and its own
training slice.  Value semantics renders `copy.deepcopy(model)`: every fold
receives the original template value. -/
def brewModels {mu beta : Type} (ops : BrewOps mu beta) (model : mu)
    (train_fdr : Rat) (max_iter folds : Nat) : List mu :=
  ((ops.split folds).map (trainRows ops.nrows)).map
    (fun t => ops.fit_model model t train_fdr max_iter)

/-- `scores = [_predict(p, m, test_fdr) for p, m in zip(models, test_sets)]`
(brew.py line 96): per-fold calibrated score vectors, in fold order. -/
def brewScores {mu beta : Type} (ops : BrewOps mu beta) (models : List mu)
    (test_idx : List (List Nat)) (test_fdr : Rat) : List (List Int) :=
  (models.zip test_idx).map
    (fun q => ops.calibrate_scores (ops.predict q.1 q.2) test_fdr)

/-- The reassembled score vector (brew.py lines 97-98):
`test_idx = sum(test_idx, tuple())` then
`scores = np.concatenate(scores)[test_idx]`, i.e. position `j` of the result
holds the concatenated score at index `test_idx[j]` (forward fancy
indexing). -/
def brewFinalScores {mu beta : Type} (ops : BrewOps mu beta) (model : mu)
    (train_fdr test_fdr : Rat) (max_iter folds : Nat) : List Int :=
  let test_idx := ops.split folds
  let models := brewModels ops model train_fdr max_iter folds
  let scores := brewScores ops models test_idx test_fdr
  let flat := test_idx.flatten
  flat.map (fun k => (scores.flatten).getD k 0)

/-- `brew` (brew.py lines 19-100): its return statement is
`return psms.assign_confidence(scores, None, desc=True)`. -/
def brew {mu beta : Type} (ops : BrewOps mu beta) (model : mu)
    (train_fdr test_fdr : Rat) (max_iter folds : Nat) : beta :=
  ops.assign_confidence (brewFinalScores ops model train_fdr test_fdr max_iter folds) true

/-- First-match lookup in an index-keyed association list. -/
def lookupIdx {alpha : Type} : List (Nat × alpha) → Nat → Option alpha
  | [], _ => none
  | (i, a) :: rest, j => if i = j then some a else lookupIdx rest j

/-- `ProcessPoolExecutor.map` semantics (brew.py lines 88-94): the pool
evaluates the tasks in some completion order `sched` (arbitrary, possibly
with repeats), but the gathered result list is indexed by the original task
positions.  `dflt` stands for the junk value of an out-of-range access and is
never reached when `sched` covers every position. -/
def poolMap {alpha beta : Type} (sched : List Nat) (f : alpha → beta)
    (xs : List alpha) (dflt : alpha) : List beta :=
  let computed := sched.map (fun i => (i, f (xs.getD i dflt)))
  (List.range xs.length).map (fun j => (lookupIdx computed j).getD (f dflt))

/-- The parallel-dispatch variant of `brewModels` (brew.py lines 88-94 with
`max_workers > 1`): the same per-fold tasks, dispatched to the pool under
completion order `sched`. -/
def brewModelsPar {mu beta : Type} (ops : BrewOps mu beta) (model : mu)
    (train_fdr : Rat) (max_iter folds : Nat) (sched : List Nat) : List mu :=
  poolMap sched (fun t => ops.fit_model model t train_fdr max_iter)
    ((ops.split folds).map (trainRows ops.nrows)) []

/-- `brewFinalScores` along the parallel dispatch path. -/
def brewFinalScoresPar {mu beta : Type} (ops : BrewOps mu beta) (model : mu)
    (train_fdr test_fdr : Rat) (max_iter folds : Nat) (sched : List Nat) : List Int :=
  let test_idx := ops.split folds
  let models := brewModelsPar ops model train_fdr max_iter folds sched
  let scores := brewScores ops models test_idx test_fdr
  let flat := test_idx.flatten
  flat.map (fun k => (scores.flatten).getD k 0)

/-- `brew` along the parallel dispatch path. -/
def brewPar {mu beta : Type} (ops : BrewOps mu beta) (model : mu)
    (train_fdr test_fdr : Rat) (max_iter folds : Nat) (sched : List Nat) : beta :=
  ops.assign_confidence
    (brewFinalScoresPar ops model train_fdr test_fdr max_iter folds sched) true

/-
Concrete instances used to evaluate the embedding at specific inputs
(counterexamples and witnesses).
-/

/-- A two-row collaborator with identity calibration and an identity
confidence report, used to evaluate the value `brew` actually returns. -/
def opsC1 : BrewOps Unit (List Int) :=
  { nrows := 2
    split := fun _ => [[0], [1]]
    fit_model := fun _ _ _ _ => ()
    predict := fun _ rows => rows.map (fun r => (r : Int))
    calibrate_scores := fun s _ => s
    assign_confidence := fun s _ => s }

/-- A three-row collaborator whose splitter returns the folds in the order
((1,), (2,), (0,)) and whose model scores row `r` as `r + 10`, making each
row's calibrated score identifiable in the output. -/
def opsC2 : BrewOps Unit (List Int) :=
  { nrows := 3
    split := fun _ => [[1], [2], [0]]
    fit_model := fun _ _ _ _ => ()
    predict := fun _ rows => rows.map (fun r => (r : Int) + 10)
    calibrate_scores := fun s _ => s
    assign_confidence := fun s _ => s }

/-- A three-fold collaborator with a model state that records the training
rows it saw, used to compare the sequential and pool dispatch paths. -/
def opsW8 : BrewOps Nat (List Int) :=
  { nrows := 3
    split := fun _ => [[0], [1], [2]]
    fit_model := fun m rows _ _ => m + rows.sum
    predict := fun m rows => rows.map (fun r => ((r + m : Nat) : Int))
    calibrate_scores := fun s _ => s
    assign_confidence := fun s _ => s }

/-- Fold-independence instance: splitter ((0,), (1, 2)). -/
def opsW9a : BrewOps Nat (List Int) :=
  { nrows := 3
    split := fun _ => [[0], [1, 2]]
    fit_model := fun m rows _ _ => m + rows.sum
    predict := fun _ _ => []
    calibrate_scores := fun s _ => s
    assign_confidence := fun s _ => s }

/-- Fold-independence instance: same collaborator except the second fold
differs, ((0,), (2,)). -/
def opsW9b : BrewOps Nat (List Int) :=
  { nrows := 3
    split := fun _ => [[0], [2]]
    fit_model := fun m rows _ _ => m + rows.sum
    predict := fun _ _ => []
    calibrate_scores := fun s _ => s
    assign_confidence := fun s _ => s }

/-- Estimator collaborator whose decision function sums each column. -/
def eopsW5 : EstOps Nat Unit :=
  { fit := fun s _ _ => s
    dec := fun _ mat => mat.map List.sum
    rawDec := fun _ _ => []
    searchBP := fun _ _ _ => ()
    setParams := fun s _ => s }

/-- A trained model over features ["a", "b"]. -/
def mW5 : Model Nat :=
  { is_trained := true
    features := some ["a", "b"]
    hasSearchAttr := false
    est := 0
    scalerFT := id
    scalerT := id }

/-- Dataset with columns a, b in training order. -/
def psmsGoodW5 : PsmDataset :=
  { featCols := [("a", [1, 2]), ("b", [3, 4])]
    find_best_feature := fun _ => ("", 0, [])
    update_labels := fun _ _ _ => []
    calibrate_scores := fun s _ => s
    split := fun _ => [] }

/-- The same dataset with its two columns swapped. -/
def psmsPermW5 : PsmDataset :=
  { featCols := [("b", [3, 4]), ("a", [1, 2])]
    find_best_feature := fun _ => ("", 0, [])
    update_labels := fun _ _ _ => []
    calibrate_scores := fun s _ => s
    split := fun _ => [] }

/-- A dataset whose second column is named "c" instead of "b". -/
def psmsBadW5 : PsmDataset :=
  { featCols := [("a", [1, 2]), ("c", [3, 4])]
    find_best_feature := fun _ => ("", 0, [])
    update_labels := fun _ _ _ => []
    calibrate_scores := fun s _ => s
    split := fun _ => [] }

/-- Estimator collaborator for the initial-direction instances; its raw
decision scores on the dataset object are [7, -7]. -/
def eopsW3 : EstOps Nat Unit :=
  { fit := fun s _ _ => s + 1
    dec := fun _ mat => mat.map List.sum
    rawDec := fun _ _ => [7, -7]
    searchBP := fun _ _ _ => ()
    setParams := fun s _ => s }

/-- Dataset whose best-feature search returns labels [1, -1] and whose
label update thresholds scores by sign (flipped when desc is false). -/
def psmsW3 : PsmDataset :=
  { featCols := [("g", [5, 7])]
    find_best_feature := fun _ => ("g", 1, [1, -1])
    update_labels := fun scores _ desc =>
      if desc then scores.map (fun x => if 0 < x then 1 else -1)
      else scores.map (fun x => if 0 < x then -1 else 1)
    calibrate_scores := fun s _ => s
    split := fun _ => [] }

/-- An already-trained model (warm start). -/
def mTrainedW3 : Model Nat :=
  { is_trained := true
    features := some ["g"]
    hasSearchAttr := false
    est := 0
    scalerFT := id
    scalerT := id }

/-- An untrained model. -/
def mUntrainedW3 : Model Nat :=
  { is_trained := false
    features := none
    hasSearchAttr := false
    est := 0
    scalerFT := id
    scalerT := id }

/-- Estimator collaborator whose hyperparameter search records the target
vector it was fit on: the search's best params are that vector, and
set_params stores it as the estimator state. -/
def eopsC4 : EstOps (List Int) (List Int) :=
  { fit := fun s _ _ => s
    dec := fun _ _ => []
    rawDec := fun _ _ => []
    searchBP := fun _ _ t => t
    setParams := fun _ p => p }

/-- Dataset whose best-feature labels are [1, 0] but whose
explicit-direction labels are [1, 1] (descending) / [0, 1] (ascending), so
the initial working labels differ from the best-feature labels. -/
def psmsC4 : PsmDataset :=
  { featCols := [("g", [5, 7])]
    find_best_feature := fun _ => ("g", 1, [1, 0])
    update_labels := fun _ _ desc => if desc then [1, 1] else [0, 1]
    calibrate_scores := fun s _ => s
    split := fun _ => [] }

/-- An untrained model whose configured estimator is a search wrapper. -/
def mC4 : Model (List Int) :=
  { is_trained := false
    features := none
    hasSearchAttr := true
    est := []
    scalerFT := id
    scalerT := id }

/-- Estimator collaborator for the training-loop instance. -/
def eopsW7 : EstOps Nat Unit :=
  { fit := fun s mat t => s + mat.length + t.length
    dec := fun s mat => mat.map (fun c => c.sum + (s : Int))
    rawDec := fun _ _ => []
    searchBP := fun _ _ _ => ()
    setParams := fun s _ => s }

/-- Dataset for the training-loop instance: labels are scores thresholded
by sign. -/
def psmsW7 : PsmDataset :=
  { featCols := [("u", [1, -2]), ("v", [3, 4])]
    find_best_feature := fun _ => ("u", 1, [1, -1])
    update_labels := fun scores _ _ => scores.map (fun x => if 0 < x then 1 else -1)
    calibrate_scores := fun s _ => s
    split := fun _ => [] }

/-- A normalized feature matrix for the training-loop instance. -/
def nfW7 : Mat := [[1, -2], [3, 4]]

/-
Helper lemmas.
-/

/-- Permuting a list does not change the finite set of its elements. -/
theorem perm_toFinset {l1 l2 : List String} (h : l1.Perm l2) :
    l1.toFinset = l2.toFinset := by
  ext a
  simp [List.mem_toFinset, h.mem_iff]

/-- With duplicate-free column names, looking a column up by name is
invariant under permuting the column list. -/
theorem findCol_perm {cols1 cols2 : List (String × List Int)}
    (h : cols1.Perm cols2) :
    (cols1.map Prod.fst).Nodup → ∀ n, findCol cols1 n = findCol cols2 n := by
  induction h with
  | nil => intro _ n; rfl
  | cons x h ih =>
    intro hnd n
    have htl : ∀ n, findCol _ n = findCol _ n :=
      ih (by simpa [List.nodup_cons] using hnd.of_cons)
    by_cases hx : x.1 = n
    · simp [findCol, hx]
    · simp [findCol, hx, htl n]
  | swap x y l =>
    intro hnd n
    have hyx : y.1 ≠ x.1 := by
      simp only [List.map_cons, List.nodup_cons, List.mem_cons] at hnd
      exact fun e => hnd.1 (Or.inl e)
    by_cases hy : y.1 = n <;> by_cases hx : x.1 = n
    · exact absurd (hy.trans hx.symm) hyx
    · simp [findCol, hy, hx]
    · simp [findCol, hy, hx]
    · simp [findCol, hy, hx]
  | trans h1 h2 ih1 ih2 =>
    intro hnd n
    exact (ih1 hnd n).trans (ih2 ((h1.map Prod.fst).nodup_iff.mp hnd) n)

/-- Column selection by a name list is invariant under permuting a
duplicate-free column list. -/
theorem selectColsByName_perm {cols1 cols2 : List (String × List Int)}
    (h : cols1.Perm cols2) (hnd : (cols1.map Prod.fst).Nodup)
    (names : List String) :
    selectColsByName cols1 names = selectColsByName cols2 names := by
  unfold selectColsByName
  exact List.map_congr_left (fun n _ => by rw [findCol_perm h hnd n])

/-- Looking up a position that the schedule visited recovers the task result
computed for that position, regardless of completion order or repeats. -/
theorem lookupIdx_map_sched {alpha : Type} (g : Nat → alpha) (sched : List Nat)
    (j : Nat) (hj : j ∈ sched) :
    lookupIdx (sched.map (fun i => (i, g i))) j = some (g j) := by
  induction sched with
  | nil => cases hj
  | cons i rest ih =>
    simp only [List.map_cons, lookupIdx]
    by_cases h : i = j
    · subst h; simp
    · have hj2 : j ∈ rest := by
        rcases List.mem_cons.mp hj with h1 | h1
        · exact absurd h1.symm h
        · exact h1
      simp [h, ih hj2]

/-- Mapping over the index range and reading positions off the list is the
same as mapping over the list. -/
theorem range_map_getD {alpha beta : Type} (f : alpha → beta) (xs : List alpha)
    (d : alpha) :
    (List.range xs.length).map (fun j => f (xs.getD j d)) = xs.map f := by
  induction xs with
  | nil => rfl
  | cons x rest ih =>
    rw [List.length_cons, List.range_succ_eq_map, List.map_cons, List.map_map]
    refine congrArg (f x :: ·) ?_
    calc (List.range rest.length).map
          ((fun j => f ((x :: rest).getD j d)) ∘ Nat.succ)
        = (List.range rest.length).map (fun j => f (rest.getD j d)) := by
          exact List.map_congr_left (fun j _ => by
            simp [Function.comp, List.getD_cons_succ])
      _ = rest.map f := ih

/-- A pool that visits every task position computes exactly the sequential
map, whatever its completion order. -/
theorem poolMap_eq_map {alpha beta : Type} (sched : List Nat) (f : alpha → beta)
    (xs : List alpha) (d : alpha)
    (hcov : ∀ j, j < xs.length → j ∈ sched) :
    poolMap sched f xs d = xs.map f := by
  unfold poolMap
  have h1 : ∀ j ∈ List.range xs.length,
      (lookupIdx (sched.map (fun i => (i, f (xs.getD i d)))) j).getD (f d)
        = f (xs.getD j d) := by
    intro j hj
    rw [lookupIdx_map_sched (fun i => f (xs.getD i d)) sched j
      (hcov j (List.mem_range.mp hj))]
    rfl
  rw [List.map_congr_left h1, range_map_getD]

/-- The training loop always performs exactly its round budget: the list of
recorded counts has one entry per round, for every estimator, dataset and
label input. -/
theorem trainLoop_length {sigma pi : Type} (eops : EstOps sigma pi)
    (norm_feat : Mat) (psms : PsmDataset) (train_fdr : Rat) :
    ∀ (n : Nat) (model : sigma) (target : Labels),
      (trainLoop eops norm_feat psms train_fdr n model target).2.2.length = n := by
  intro n
  induction n with
  | zero => intro _ _; rfl
  | succ k ih =>
    intro model target
    simp only [trainLoop, List.length_cons]
    rw [ih]

/-
Claim theorems.
-/

/-- C10: for every model and PSM collection, `Model.predict` behaves exactly
like `Model.decision_function`: same scores when it succeeds and the same
error when it fails (model.py lines 108-110 define predict as the alias). -/
theorem predict_eq_decision_function {sigma pi : Type} (eops : EstOps sigma pi)
    (m : Model sigma) (p : PsmDataset) :
    Model.predict eops m p = Model.decision_function eops m p := rfl

/-- C6: on a freshly constructed model (any estimator, any scaler), both
`decision_function` and `predict` fail with the not-trained error and no
score is returned (model.py lines 97-98 guard on `is_trained`, which
`__init__` sets to False). -/
theorem decision_function_untrained_guard {sigma pi : Type}
    (eops : EstOps sigma pi) (est : sigma) (hasSearchAttr : Bool)
    (scalerFT scalerT : Mat → Mat) (p : PsmDataset) :
    Model.decision_function eops (Model.init est hasSearchAttr scalerFT scalerT) p
      = Except.error ScoreError.notFitted ∧
    Model.predict eops (Model.init est hasSearchAttr scalerFT scalerT) p
      = Except.error ScoreError.notFitted := by
  exact ⟨rfl, rfl⟩

/-- C1: evaluating `brew` on a concrete two-row collaborator shows its
return value is exactly the bare result of `assign_confidence` applied to
the reassembled scores — a single confidence report, not the
(confidence, trained-models) pair the claim describes (brew.py line 100
returns only `psms.assign_confidence(scores, None, desc=True)`). -/
theorem brew_return_value_eval :
    brew opsC1 () (1 / 100) (1 / 100) 10 2
      = opsC1.assign_confidence
          (brewFinalScores opsC1 () (1 / 100) (1 / 100) 10 2) true ∧
    brew opsC1 () (1 / 100) (1 / 100) 10 2 = [0, 1] := by
  exact ⟨rfl, by decide⟩

/-- C2: with the splitter returning folds ((1,), (2,), (0,)) and row `r`
scoring `r + 10`, the reassembled vector is [12, 10, 11]: position `j`
receives the concatenated score at index `test_idx[j]` (forward fancy
indexing, brew.py lines 97-98), not the calibrated score of PSM `j` — so the
claimed inverse-permutation property fails. -/
theorem brew_reassembly_forward_permutation :
    brewFinalScores opsC2 () (1 / 100) (1 / 100) 1 3 = [12, 10, 11] ∧
    ¬ (∀ r : Nat, r < 3 →
        (brewFinalScores opsC2 () (1 / 100) (1 / 100) 1 3).getD r 0
          = (r : Int) + 10) := by
  refine ⟨by decide, fun h => ?_⟩
  exact absurd (h 0 (by decide)) (by decide)

/-- C9: brew's per-fold training never shares model state: fold `i`'s
trained model is obtained by applying the per-fold training to the original
template value (the deep copy of brew.py line 82) and depends only on fold
`i`'s own training slice — two collaborators with the same row count and
training operation whose splits agree at fold `i` yield the same model at
fold `i`, whatever the other folds look like. -/
theorem brewModels_fold_independent {mu beta : Type}
    (ops1 ops2 : BrewOps mu beta) (model : mu) (train_fdr : Rat)
    (max_iter folds i : Nat) (g : List Nat)
    (hn : ops1.nrows = ops2.nrows)
    (hf : ops1.fit_model = ops2.fit_model)
    (hs : (ops1.split folds)[i]? = (ops2.split folds)[i]?)
    (hg : (ops1.split folds)[i]? = some g) :
    (brewModels ops1 model train_fdr max_iter folds)[i]?
      = (brewModels ops2 model train_fdr max_iter folds)[i]? ∧
    (brewModels ops1 model train_fdr max_iter folds)[i]?
      = some (ops1.fit_model model (trainRows ops1.nrows g) train_fdr max_iter) := by
  unfold brewModels
  rw [List.getElem?_map, List.getElem?_map, List.getElem?_map,
    List.getElem?_map, hg, ← hs, hg, hn, hf]
  exact ⟨rfl, rfl⟩

/-- C9 witness: two concrete collaborators sharing fold 0 but differing at
fold 1 produce the same fold-0 model, which equals the training operation
applied to the template and fold 0's complement rows. -/
theorem brewModels_fold_independent_witness :
    (brewModels opsW9a 5 (1 / 100) 2 2)[0]?
      = (brewModels opsW9b 5 (1 / 100) 2 2)[0]? ∧
    (brewModels opsW9a 5 (1 / 100) 2 2)[0]?
      = some (opsW9a.fit_model 5 (trainRows opsW9a.nrows [0]) (1 / 100) 2) :=
  brewModels_fold_independent opsW9a opsW9b 5 (1 / 100) 2 2 0 [0]
    rfl rfl rfl rfl

/-- C8: the sequential dispatch path (`max_workers=1`, builtin map) and the
pool dispatch path under any completion schedule that visits every fold
produce identical per-fold models, identical reassembled score vectors, and
identical confidence reports (brew.py lines 87-98; ProcessPoolExecutor.map
gathers results in task order). -/
theorem brew_par_eq_seq {mu beta : Type} (ops : BrewOps mu beta) (model : mu)
    (train_fdr test_fdr : Rat) (max_iter folds : Nat) (sched : List Nat)
    (hcov : ∀ j, j < (ops.split folds).length → j ∈ sched) :
    brewModelsPar ops model train_fdr max_iter folds sched
      = brewModels ops model train_fdr max_iter folds ∧
    brewFinalScoresPar ops model train_fdr test_fdr max_iter folds sched
      = brewFinalScores ops model train_fdr test_fdr max_iter folds ∧
    brewPar ops model train_fdr test_fdr max_iter folds sched
      = brew ops model train_fdr test_fdr max_iter folds := by
  have hm : brewModelsPar ops model train_fdr max_iter folds sched
      = brewModels ops model train_fdr max_iter folds := by
    unfold brewModelsPar brewModels
    refine poolMap_eq_map sched _ _ [] ?_
    intro j hj
    exact hcov j (by simpa using hj)
  have hsc : brewFinalScoresPar ops model train_fdr test_fdr max_iter folds sched
      = brewFinalScores ops model train_fdr test_fdr max_iter folds := by
    unfold brewFinalScoresPar brewFinalScores
    rw [hm]
  refine ⟨hm, hsc, ?_⟩
  unfold brewPar brew
  rw [hsc]

/-- C8 witness: on a concrete three-fold collaborator, the pool path under
completion order [2, 0, 1] matches the sequential path exactly. -/
theorem brew_par_eq_seq_witness :
    brewModelsPar opsW8 1 (1 / 100) 2 3 [2, 0, 1]
      = brewModels opsW8 1 (1 / 100) 2 3 ∧
    brewFinalScoresPar opsW8 1 (1 / 100) (1 / 50) 2 3 [2, 0, 1]
      = brewFinalScores opsW8 1 (1 / 100) (1 / 50) 2 3 ∧
    brewPar opsW8 1 (1 / 100) (1 / 50) 2 3 [2, 0, 1]
      = brew opsW8 1 (1 / 100) (1 / 50) 2 3 :=
  brew_par_eq_seq opsW8 1 (1 / 100) (1 / 50) 2 3 [2, 0, 1] (by decide)

/-- C5: for a trained model, a prediction-time feature matrix whose column
name set differs from the training-time feature set fails with the
feature-mismatch error, while two matrices that are column permutations of
one another (duplicate-free names, matching the training set) both succeed
with the identical score vector, computed from the columns selected in the
stored training order (model.py lines 97-106). -/
theorem decision_function_feature_consistency {sigma pi : Type}
    (eops : EstOps sigma pi) (m : Model sigma) (fs : List String)
    (p q : PsmDataset)
    (ht : m.is_trained = true) (hf : m.features = some fs) :
    (p.featNames.toFinset ≠ fs.toFinset →
      Model.decision_function eops m p = Except.error ScoreError.featureMismatch) ∧
    (p.featCols.Perm q.featCols → p.featNames.Nodup →
      p.featNames.toFinset = fs.toFinset →
      Model.decision_function eops m p
        = Except.ok (eops.dec m.est (m.scalerT (selectColsByName p.featCols fs))) ∧
      Model.decision_function eops m q
        = Except.ok (eops.dec m.est (m.scalerT (selectColsByName p.featCols fs)))) := by
  constructor
  · intro hne
    simp [Model.decision_function, ht, hf, hne]
  · intro hperm hnd hset
    have hqset : q.featNames.toFinset = fs.toFinset := by
      rw [← hset]
      exact (perm_toFinset (hperm.map Prod.fst)).symm
    have hsel : selectColsByName q.featCols fs = selectColsByName p.featCols fs :=
      (selectColsByName_perm hperm hnd fs).symm
    constructor
    · simp [Model.decision_function, ht, hf, hset]
    · simp [Model.decision_function, ht, hf, hqset, hsel]

/-- C5 witness: concretely, dropping column "b" for "c" fails with the
mismatch error, while swapping the two columns leaves the scores [3, 7]
unchanged. -/
theorem decision_function_feature_consistency_witness :
    Model.decision_function eopsW5 mW5 psmsBadW5
      = Except.error ScoreError.featureMismatch ∧
    Model.decision_function eopsW5 mW5 psmsGoodW5 = Except.ok [3, 7] ∧
    Model.decision_function eopsW5 mW5 psmsPermW5 = Except.ok [3, 7] := by
  have hbad := (decision_function_feature_consistency eopsW5 mW5 ["a", "b"]
    psmsBadW5 psmsGoodW5 rfl rfl).1 (by decide)
  have hgood := (decision_function_feature_consistency eopsW5 mW5 ["a", "b"]
    psmsGoodW5 psmsPermW5 rfl rfl).2 (by decide) (by decide) (by decide)
  exact ⟨hbad, hgood.1.trans rfl, hgood.2.trans rfl⟩

/-- C7: the training loop performs exactly `max_iter` relabel/refit rounds
for every input (the recorded count list has one entry per round and its
length never depends on the labels or counts, so there is no early
stopping); each round fits the estimator on the rows with nonzero working
label recoded to {0,1} (values 0 or 1 whenever the labels lie in
{-1, 0, 1}), scores the entire normalized matrix, rethresholds at
`train_fdr`, and records the +1 count (model.py lines 176-193). -/
theorem trainLoop_fixed_iterations {sigma pi : Type} (eops : EstOps sigma pi)
    (norm_feat : Mat) (psms : PsmDataset) (train_fdr : Rat) (max_iter : Nat)
    (model : sigma) (target : Labels)
    (hlab : ∀ l ∈ target, l = -1 ∨ l = 0 ∨ l = 1) :
    (trainLoop eops norm_feat psms train_fdr max_iter model target).2.2.length
      = max_iter ∧
    (∀ v ∈ recode target, v = 0 ∨ v = 1) ∧
    (0 < max_iter →
      trainLoop eops norm_feat psms train_fdr max_iter model target =
        (let m1 := eops.fit model (selectRows norm_feat target) (recode target)
         let t1 := psms.update_labels (eops.dec m1 norm_feat) (some train_fdr) true
         let rest := trainLoop eops norm_feat psms train_fdr (max_iter - 1) m1 t1
         (rest.1, rest.2.1, countPos t1 :: rest.2.2))) := by
  refine ⟨trainLoop_length eops norm_feat psms train_fdr max_iter model target,
    ?_, ?_⟩
  · intro v hv
    unfold recode at hv
    obtain ⟨l, hl, hveq⟩ := List.mem_map.mp hv
    obtain ⟨hmem, hne⟩ := List.mem_filter.mp hl
    have hne2 : l ≠ 0 := by simpa using hne
    rcases hlab l hmem with h | h | h
    · left
      rw [← hveq, h]
      decide
    · exact absurd h hne2
    · right
      rw [← hveq, h]
      decide
  · intro hpos
    match max_iter, hpos with
    | Nat.succ k, _ => rfl

/-- C7 witness: on a concrete estimator, matrix and label vector [1, -1, 0],
two rounds record exactly two counts, and the recoded value 0 (from label
-1) lies in {0, 1}. -/
theorem trainLoop_fixed_iterations_witness :
    (trainLoop eopsW7 nfW7 psmsW7 (1 / 100) 2 0 [1, -1, 0]).2.2.length = 2 ∧
    ((1 : Int) = 0 ∨ (1 : Int) = 1) := by
  have h := trainLoop_fixed_iterations eopsW7 nfW7 psmsW7 (1 / 100) 2 0
    [1, -1, 0] (by decide)
  exact ⟨h.1, h.2.1 1 (by decide)⟩

/-- C3 (amended): the initial working labels of `Model.fit` follow the
three-way rule — warm start thresholds the model's own decision scores at
`train_fdr`; an explicit direction on an untrained model compares the
descending and ascending interpretations, keeping descending on ties; the
untrained, no-direction default keeps the best-feature search's label
vector — while the best-single-feature search itself is invoked on every
call to fit (model.py line 140 precedes the branch), so it is not skipped
in the warm-start case, merely unused for the initial labels. -/
theorem fit_initial_label_rule {sigma pi : Type} (eops : EstOps sigma pi)
    (m : Model sigma) (psms : PsmDataset) (train_fdr : Rat) (max_iter : Nat)
    (direction : Option String) :
    (Model.fit eops m psms train_fdr max_iter direction).2.2 = 1 ∧
    (m.is_trained = true →
      startLabels eops m psms train_fdr direction
          ((psms.find_best_feature train_fdr).2.2)
        = psms.update_labels (eops.rawDec m.est psms) (some train_fdr) true) ∧
    (m.is_trained = false → direction = none →
      startLabels eops m psms train_fdr direction
          ((psms.find_best_feature train_fdr).2.2)
        = (psms.find_best_feature train_fdr).2.2) ∧
    (∀ d, m.is_trained = false → direction = some d →
      startLabels eops m psms train_fdr direction
          ((psms.find_best_feature train_fdr).2.2)
        = (let v := (findCol psms.featCols d).getD []
           let desc_labels := psms.update_labels v none true
           let asc_labels := psms.update_labels v none false
           if countPos desc_labels ≥ countPos asc_labels then desc_labels
           else asc_labels)) := by
  refine ⟨rfl, ?_, ?_, ?_⟩
  · intro ht
    unfold startLabels
    rw [if_neg (fun hc => by rw [ht] at hc; exact absurd hc.2 (by decide)),
      if_pos ht]
  · intro ht hd
    unfold startLabels
    rw [if_pos ⟨hd, ht⟩]
  · intro d ht hd
    unfold startLabels
    rw [hd]
    rw [if_neg (fun hc => Option.noConfusion hc.1)]
    rw [if_neg (fun hc => by rw [ht] at hc; exact absurd hc (by decide))]
    rfl

/-- C3 witness: the three branches and the unconditional search invocation,
evaluated on concrete trained and untrained models. -/
theorem fit_initial_label_rule_witness :
    (Model.fit eopsW3 mTrainedW3 psmsW3 (1 / 100) 1 none).2.2 = 1 ∧
    startLabels eopsW3 mTrainedW3 psmsW3 (1 / 100) none
        ((psmsW3.find_best_feature (1 / 100)).2.2)
      = psmsW3.update_labels (eopsW3.rawDec mTrainedW3.est psmsW3)
          (some (1 / 100)) true ∧
    startLabels eopsW3 mUntrainedW3 psmsW3 (1 / 100) none
        ((psmsW3.find_best_feature (1 / 100)).2.2)
      = (psmsW3.find_best_feature (1 / 100)).2.2 ∧
    startLabels eopsW3 mUntrainedW3 psmsW3 (1 / 100) (some "g")
        ((psmsW3.find_best_feature (1 / 100)).2.2)
      = (let v := (findCol psmsW3.featCols "g").getD []
         let desc_labels := psmsW3.update_labels v none true
         let asc_labels := psmsW3.update_labels v none false
         if countPos desc_labels ≥ countPos asc_labels then desc_labels
         else asc_labels) := by
  refine ⟨(fit_initial_label_rule eopsW3 mTrainedW3 psmsW3 (1 / 100) 1 none).1,
    (fit_initial_label_rule eopsW3 mTrainedW3 psmsW3 (1 / 100) 1 none).2.1 rfl,
    (fit_initial_label_rule eopsW3 mUntrainedW3 psmsW3 (1 / 100) 1 none).2.2.1
      rfl rfl,
    (fit_initial_label_rule eopsW3 mUntrainedW3 psmsW3 (1 / 100) 1
      (some "g")).2.2.2 "g" rfl rfl⟩

/-- C3 counterexample: on an already-trained model the claim says the
best-single-feature search is skipped, but a warm-start call to fit still
performs it — the recorded number of `_find_best_feature` invocations is 1,
not 0 (model.py line 140 runs unconditionally before the branch). -/
theorem fit_warm_start_still_searches :
    mTrainedW3.is_trained = true ∧
    (Model.fit eopsW3 mTrainedW3 psmsW3 (1 / 100) 1 none).2.2 ≠ 0 := by
  exact ⟨rfl, by decide⟩

/-- C4 (amended): when the configured estimator is a search wrapper,
`Model.fit` fits the search exactly once, before the iteration loop, on
precisely the examples whose label from the dataset's best-feature search
(`feat_labels`) is nonzero, recoded to {0,1} — these coincide with the
initial working labels only in the untrained no-direction case — applies
the resulting best parameters to the inner estimator, and runs every loop
iteration through that inner estimator (the loop body of `trainLoop` uses
only the estimator's own fit/decision operations, never the search); the
returned model no longer carries the search wrapper. -/
theorem fit_search_once_before_loop {sigma pi : Type} (eops : EstOps sigma pi)
    (m : Model sigma) (psms : PsmDataset) (train_fdr : Rat) (max_iter : Nat)
    (direction : Option String) (hs : m.hasSearchAttr = true) :
    Model.fit eops m psms train_fdr max_iter direction =
      (let fb := psms.find_best_feature train_fdr
       let norm_feat := m.scalerFT (psms.featCols.map Prod.snd)
       let inner0 := eops.setParams m.est
         (eops.searchBP m.est (selectRows norm_feat fb.2.2) (recode fb.2.2))
       let r := trainLoop eops norm_feat psms train_fdr max_iter inner0
         (startLabels eops m psms train_fdr direction fb.2.2)
       ({ m with is_trained := true
                 hasSearchAttr := false
                 est := r.1
                 features := some psms.featNames },
        r.2.2, 1)) := by
  unfold Model.fit
  rw [hs]
  rfl

/-- C4 witness: the amended statement evaluated on a concrete untrained
model whose estimator is a search wrapper. -/
theorem fit_search_once_before_loop_witness :
    Model.fit eopsC4 mC4 psmsC4 (1 / 100) 0 (some "g") =
      (let fb := psmsC4.find_best_feature (1 / 100)
       let norm_feat := mC4.scalerFT (psmsC4.featCols.map Prod.snd)
       let inner0 := eopsC4.setParams mC4.est
         (eopsC4.searchBP mC4.est (selectRows norm_feat fb.2.2) (recode fb.2.2))
       let r := trainLoop eopsC4 norm_feat psmsC4 (1 / 100) 0 inner0
         (startLabels eopsC4 mC4 psmsC4 (1 / 100) (some "g") fb.2.2)
       ({ mC4 with is_trained := true
                   hasSearchAttr := false
                   est := r.1
                   features := some psmsC4.featNames },
        r.2.2, 1)) :=
  fit_search_once_before_loop eopsC4 mC4 psmsC4 (1 / 100) 0 (some "g") rfl

/-- C4 counterexample: with best-feature labels [1, 0] but initial working
labels [1, 1] (explicit direction, descending wins), the search wrapper is
fit on the recoded best-feature selection [1], not on the recoded initial
working labels [1, 1] — the estimator state after fit records the target
vector the search received, refuting the claim that the search is fit on
precisely the examples selected by the initial working labels. -/
theorem fit_search_uses_feat_labels :
    (Model.fit eopsC4 mC4 psmsC4 (1 / 100) 0 (some "g")).1.est = [1] ∧
    recode (startLabels eopsC4 mC4 psmsC4 (1 / 100) (some "g")
        ((psmsC4.find_best_feature (1 / 100)).2.2)) = [1, 1] ∧
    ([1] : List Int) ≠ [1, 1] := by
  refine ⟨?_, ?_, by decide⟩ <;> rfl
